import Mathlib

/-!
Verification development for the credit-risk dashboard repository
(`streamlit_dashboard.py`, `updated_dashboard.py`, `run_dashboard.py`).

The three scripts share one filter → aggregate → summarize pipeline over the
`german_credit_data.csv` table.  This file gives a shallow embedding of that
pipeline: dataframe rows become records, pandas column operations become list
functions, floating-point means become `Option ℚ` (with `none` standing for
the NaN that `Series.mean()` yields on an empty frame), and the OpenAI call
becomes an `Except String String` oracle (`ok` = response content,
`error` = the string of the raised exception, which the `except Exception`
branch turns into the fallback text).
-/

/-- Raw row of `german_credit_data.csv` as read by `pd.read_csv`.  The
`Saving accounts` and `Checking account` columns may be missing (NaN),
modelled with `Option`; all other columns are always present.  Ages, credit
amounts, durations and job codes are integers in the csv. -/
structure RawRecord where
  age : Int
  sex : String
  job : Int
  housing : String
  saving : Option String
  checking : Option String
  creditAmount : Int
  duration : Int
  purpose : String
deriving DecidableEq

/-- Row of `df_clean` after preprocessing: missing account levels replaced by
`"unknown"` and the two derived bucket columns `Age_Group` and
`Credit_Amount_Group` attached (`none` = the NaN that `pd.cut` assigns to a
value outside every bin). -/
structure Record where
  age : Int
  sex : String
  job : Int
  housing : String
  saving : String
  checking : String
  creditAmount : Int
  duration : Int
  purpose : String
  ageGroup : Option String
  creditGroup : Option String
deriving DecidableEq

/-- `pd.cut(df_clean['Age'], bins=[0, 25, 35, 45, 55, 100], labels=[...])`:
right-closed intervals (0,25], (25,35], (35,45], (45,55], (55,100]; values
outside (0,100] get NaN. -/
def ageGroupOf (a : Int) : Option String :=
  if 0 < a ∧ a ≤ 25 then some "18-25"
  else if 25 < a ∧ a ≤ 35 then some "26-35"
  else if 35 < a ∧ a ≤ 45 then some "36-45"
  else if 45 < a ∧ a ≤ 55 then some "46-55"
  else if 55 < a ∧ a ≤ 100 then some "55+"
  else none

/-- Assign one of the five ranked labels by right-closed bin edges
`(e0,e1], (e1,e2], (e2,e3], (e3,e4], (e4,e5]`. -/
def binLabel5 (e0 e1 e2 e3 e4 e5 c : ℚ) : Option String :=
  if e0 < c ∧ c ≤ e1 then some "Very Low"
  else if e1 < c ∧ c ≤ e2 then some "Low"
  else if e2 < c ∧ c ≤ e3 then some "Medium"
  else if e3 < c ∧ c ≤ e4 then some "High"
  else if e4 < c ∧ c ≤ e5 then some "Very High"
  else none

/-- `pd.cut(df_clean['Credit amount'], bins=5, labels=[...])`: five
equal-width bins over the observed column min/max.  pandas widens degenerate
ranges (min = max) by 0.1% on both sides (or by 0.001 at zero), otherwise it
extends only the leftmost edge down by 0.1% of the range so the minimum lands
in the first right-closed bin. -/
def creditGroupOf (mn mx c : ℚ) : Option String :=
  if mn = mx then
    let lo := mn - (if mn = 0 then 1/1000 else |mn| / 1000)
    let hi := mx + (if mx = 0 then 1/1000 else |mx| / 1000)
    let w := (hi - lo) / 5
    binLabel5 lo (lo + w) (lo + 2*w) (lo + 3*w) (lo + 4*w) hi c
  else
    let w := (mx - mn) / 5
    binLabel5 (mn - (mx - mn) / 1000) (mn + w) (mn + 2*w) (mn + 3*w) (mn + 4*w) mx c

/-- Column minimum (`Series.min()`), defaulting to 0 on an empty column; the
default is never reached by the dashboards, which always load a non-empty
csv. -/
def listMinD : List Int → Int
  | [] => 0
  | a :: l => l.foldl min a

/-- Column maximum (`Series.max()`), defaulting to 0 on an empty column. -/
def listMaxD : List Int → Int
  | [] => 0
  | a :: l => l.foldl max a

/-- Preprocess one row: `fillna('unknown')` on the two account columns and
attach the two derived bucket labels.  `mn`/`mx` are the credit-amount
bounds of the full dataset, fixed before any row is labelled. -/
def labelRecord (mn mx : ℚ) (r : RawRecord) : Record where
  age := r.age
  sex := r.sex
  job := r.job
  housing := r.housing
  saving := r.saving.getD "unknown"
  checking := r.checking.getD "unknown"
  creditAmount := r.creditAmount
  duration := r.duration
  purpose := r.purpose
  ageGroup := ageGroupOf r.age
  creditGroup := creditGroupOf mn mx (r.creditAmount : ℚ)

/-- `load_data` / the module-level `df_clean` preprocessing: the whole frame
is labelled once, with credit-bucket edges computed from the full unfiltered
column. -/
def load_data (raw : List RawRecord) : List Record :=
  raw.map (labelRecord ((listMinD (raw.map (·.creditAmount)) : Int) : ℚ)
                       ((listMaxD (raw.map (·.creditAmount)) : Int) : ℚ))

/-- Sidebar filter state of `streamlit_dashboard.main`: the two multiselect
allow-lists and the two inclusive slider ranges. -/
structure FilterSpec where
  purposes : List String
  housing_types : List String
  age_min : Int
  age_max : Int
  credit_min : Int
  credit_max : Int

/-- One row of the boolean mask
`df['Purpose'].isin(...) & df['Housing'].isin(...) &
df['Age'].between(lo, hi) & df['Credit amount'].between(lo, hi)`
(`between` is inclusive on both ends by default). -/
def recordPasses (spec : FilterSpec) (r : Record) : Bool :=
  decide (r.purpose ∈ spec.purposes) &&
  decide (r.housing ∈ spec.housing_types) &&
  decide (spec.age_min ≤ r.age) && decide (r.age ≤ spec.age_max) &&
  decide (spec.credit_min ≤ r.creditAmount) && decide (r.creditAmount ≤ spec.credit_max)

/-- `filtered_df = df[mask]`: row selection by the conjunction of the four
predicates. -/
def applyFilter (v : List Record) (spec : FilterSpec) : List Record :=
  v.filter (recordPasses spec)

/-- `Series.unique()`: distinct values in first-seen order. -/
def pdUnique [DecidableEq α] (l : List α) : List α :=
  l.foldl (fun acc x => if x ∈ acc then acc else acc ++ [x]) []

/-- Default widget state: every observed purpose and housing category
selected, sliders at the observed min/max of the loaded frame. -/
def defaultSpec (v : List Record) : FilterSpec where
  purposes := pdUnique (v.map (·.purpose))
  housing_types := pdUnique (v.map (·.housing))
  age_min := listMinD (v.map (·.age))
  age_max := listMaxD (v.map (·.age))
  credit_min := listMinD (v.map (·.creditAmount))
  credit_max := listMaxD (v.map (·.creditAmount))

/-- `Series.mean()`: sum divided by count; on an empty series pandas yields
NaN, modelled as `none`. -/
def meanInt (l : List Int) : Option ℚ :=
  if l.isEmpty then none else some ((l.map (fun n => (n : ℚ))).sum / l.length)

/-- The `data_summary` dict built by `streamlit_dashboard.main` and
`updated_dashboard.update_all_charts`: record count, the three column means,
plus the fixed risk fields (`'Mixed portfolio'` in the streamlit variant,
`30.0` percent in the dash variant).  The wall-clock `timestamp` entry is
display-only and omitted. -/
structure SummaryStats where
  total_records : Nat
  avg_credit : Option ℚ
  avg_age : Option ℚ
  avg_duration : Option ℚ
  risk_distribution : String
  high_risk_pct : ℚ

/-- Scalar snapshot of a (possibly filtered) view, as assembled at
`streamlit_dashboard.py:272-279` and `updated_dashboard.py:272-279`. -/
def scalarSummary (view : List Record) : SummaryStats where
  total_records := view.length
  avg_credit := meanInt (view.map (·.creditAmount))
  avg_age := meanInt (view.map (·.age))
  avg_duration := meanInt (view.map (·.duration))
  risk_distribution := "Mixed portfolio"
  high_risk_pct := 30

/-- Strict lexicographic order on lists of naturals (the code-point sequences
of strings).  pandas sorts object-dtype group keys by this order. -/
def lexLtN : List Nat → List Nat → Bool
  | [], [] => false
  | [], _ :: _ => true
  | _ :: _, [] => false
  | a :: as, b :: bs => if a < b then true else if b < a then false else lexLtN as bs

/-- Reflexive lexicographic order on lists of naturals. -/
def lexLeN : List Nat → List Nat → Bool
  | [], _ => true
  | _ :: _, [] => false
  | a :: as, b :: bs => if a < b then true else if b < a then false else lexLeN as bs

/-- Code-point sequence of a string, the sort key pandas effectively uses for
object-dtype columns. -/
def strKey (s : String) : List Nat := s.data.map Char.toNat

/-- String comparison by code points (reflexive). -/
def strLeB (s t : String) : Bool := lexLeN (strKey s) (strKey t)

/-- Lexicographic comparison of sort keys: first by the `List Nat` component
under `lexLtN`, ties resolved by a secondary reflexive comparison. -/
def lexCmpLe (f : α → List Nat) (le2 : α → α → Bool) (a b : α) : Bool :=
  if lexLtN (f a) (f b) then true
  else if lexLtN (f b) (f a) then false
  else le2 a b

/-- Position of an `Age_Group` label in the categorical level order declared
by `pd.cut` (`['18-25', '26-35', '36-45', '46-55', '55+']`); groupby sorts a
categorical key by this order. -/
def ageRank (g : String) : Nat :=
  if g = "18-25" then 0
  else if g = "26-35" then 1
  else if g = "36-45" then 2
  else if g = "46-55" then 3
  else if g = "55+" then 4
  else 5

/-- Group-key order for `groupby(['Age_Group', 'Sex'])`. -/
def asLe : (String × String) → (String × String) → Bool :=
  lexCmpLe (fun k => [ageRank k.1]) (fun a b => strLeB a.2 b.2)

/-- Group-key order for `groupby(['Housing', 'Job'])`. -/
def hjLe : (String × Int) → (String × Int) → Bool :=
  lexCmpLe (fun k => strKey k.1) (fun a b => decide (a.2 ≤ b.2))

/-- Group-key order for `groupby(['Saving accounts', 'Checking account'])`. -/
def scLe : (String × String) → (String × String) → Bool :=
  lexCmpLe (fun k => strKey k.1) (fun a b => strLeB a.2 b.2)

/-- Descending-count order used by `value_counts` (counted pairs compared by
count only, so ties keep their relative order under a stable sort). -/
def cntGe (a b : α × Nat) : Bool := decide (b.2 ≤ a.2)

/-- Insert `x` behind every element `y` with `r y x`: the stable insertion
step (elements already in the list win ties). -/
def insTail (r : α → α → Bool) (x : α) : List α → List α
  | [] => [x]
  | y :: ys => if r y x then y :: insTail r x ys else x :: y :: ys

/-- Stable sort by repeated tail insertion, processing the input left to
right, so equal elements end up in first-seen order. -/
def isort (r : α → α → Bool) (l : List α) : List α :=
  l.foldl (fun acc x => insTail r x acc) []

/-- Key/count table of a hashtable count: distinct keys in first-seen order,
each with its multiplicity. -/
def countsFS [DecidableEq κ] (keys : List κ) : List (κ × Nat) :=
  (pdUnique keys).map (fun k => (k, keys.count k))

/-- `Series.value_counts()`: frequency table sorted by descending count.
pandas counts keys in first-seen hashtable order and then applies
`sort_values(ascending=False)`, whose reverse/argsort/reverse implementation
keeps ties in first-seen order. -/
def valueCounts (l : List String) : List (String × Nat) :=
  isort cntGe (countsFS l)

/-- `groupby(['Housing', 'Job']).size().reset_index(name='Count')`: counts
per distinct key pair, group keys sorted ascending (groupby default
`sort=True`). -/
def groupCountHousingJob (v : List Record) : List ((String × Int) × Nat) :=
  isort (fun a b => hjLe a.1 b.1) (countsFS (v.map (fun r => (r.housing, r.job))))

/-- `groupby(['Age_Group', 'Sex']).size().reset_index(name='Count')`: rows
whose `Age_Group` is NaN are dropped (groupby default `dropna=True`), the
remaining key pairs are counted and sorted by category order then sex. -/
def groupCountAgeSex (v : List Record) : List ((String × String) × Nat) :=
  isort (fun a b => asLe a.1 b.1)
    (countsFS (v.filterMap (fun r => r.ageGroup.map (fun g => (g, r.sex)))))

/-- `groupby(['Saving accounts', 'Checking account']).size()` after the
`fillna('unknown')` preprocessing (no NaN keys remain). -/
def groupCountSavingChecking (v : List Record) : List ((String × String) × Nat) :=
  isort (fun a b => scLe a.1 b.1) (countsFS (v.map (fun r => (r.saving, r.checking))))

/-- Round to the nearest integer, ties to the even integer, as Python float
formatting does at display precision (exact float-tie artifacts are below
this embedding's abstraction level). -/
def roundHalfEven (q : ℚ) : Int :=
  let f := q.floor
  let frac := q - f
  if frac < 1/2 then f
  else if 1/2 < frac then f + 1
  else if f % 2 = 0 then f else f + 1

/-- Insert a thousands separator after every third digit; the input is the
reversed digit list, `i` counts digits already consumed. -/
def addCommas3 (i : Nat) : List Char → List Char
  | [] => []
  | c :: cs =>
    if 0 < i ∧ i % 3 = 0 then ',' :: c :: addCommas3 (i + 1) cs
    else c :: addCommas3 (i + 1) cs

/-- Decimal rendering of a natural with thousands separators. -/
def commaGroupN (n : Nat) : String :=
  String.mk ((addCommas3 0 (toString n).data.reverse).reverse)

/-- Python `format(n, ',d')`-style rendering of an integer. -/
def commaGroupI (n : Int) : String :=
  (if n < 0 then "-" else "") ++ commaGroupN n.natAbs

/-- Python `f"{x:,.0f}"` on a possibly-NaN float: NaN renders as `"nan"`. -/
def fmtMoney : Option ℚ → String
  | none => "nan"
  | some q => commaGroupI (roundHalfEven q)

/-- Python `f"{x:.0f}"` on a possibly-NaN float. -/
def fmt0 : Option ℚ → String
  | none => "nan"
  | some q => toString (roundHalfEven q)

/-- Python `f"{x:.1f}"` on a rational. -/
def fmt1Q (q : ℚ) : String :=
  let n := roundHalfEven (q * 10)
  (if n < 0 then "-" else "") ++ toString (n.natAbs / 10) ++ "." ++ toString (n.natAbs % 10)

/-- Python `f"{x:.1f}"` on a possibly-NaN float. -/
def fmt1 : Option ℚ → String
  | none => "nan"
  | some q => fmt1Q q

/-- Literal part of the streamlit fallback f-string before the record
count. -/
def fsHead : String :=
  "\n        **Professional Credit Risk Analysis**\n        \n        **Key Performance Indicators:**\n        • Portfolio size: "

/-- Literal part of the streamlit fallback between record count and average
credit. -/
def fsMid1 : String := " active accounts\n        • Average exposure: $"

/-- Literal part of the streamlit fallback between average credit and
average age. -/
def fsMid2 : String := " per account\n        • Client demographics: Average age "

/-- Literal tail of the streamlit fallback after the average age. -/
def fsTail : String :=
  " years\n        \n        **Risk Assessment:**\n        • Housing stability correlates with creditworthiness\n        • Loan duration shows inverse relationship with default risk\n        • Age demographics indicate prime borrowing segment (26-35)\n        \n        **Strategic Recommendations:**\n        • Implement tiered risk pricing based on housing status\n        • Develop age-specific lending products\n        • Enhance due diligence for high-value loans\n        \n        Note: Live AI analysis requires OpenAI API connectivity\n        "

/-- The `except` branch of `streamlit_dashboard.generate_ai_analysis`
(lines 144-164): a fixed f-string template over the `data_summary` fields.
It does not interpolate the caught exception anywhere. -/
def fallbackStreamlit (s : SummaryStats) : String :=
  fsHead ++ toString s.total_records ++ fsMid1 ++ fmtMoney s.avg_credit
  ++ fsMid2 ++ fmt1 s.avg_age ++ fsTail

/-- `streamlit_dashboard.generate_ai_analysis`: the whole OpenAI interaction
sits in a `try` block modelled by the oracle argument; a successful call
returns `response.choices[0].message.content` verbatim, any raised exception
is caught and the local template returned instead. -/
def generate_ai_analysis (s : SummaryStats) (service : Except String String) : String :=
  match service with
  | .ok content => content
  | .error _ => fallbackStreamlit s

/-- Literal head of the demo-mode fallback f-string, up to the record
count; it opens with the `(Demo Mode)` banner. -/
def fuHead : String :=
  "🔍 **AI Credit Risk Analysis** (Demo Mode)\n        \n**Key Insights:**\n• "

/-- Literal part of the demo-mode fallback between record count and average
credit. -/
def fuMid1 : String := " credit applications analyzed\n• Average credit amount: $"

/-- Literal part of the demo-mode fallback between average credit and the
high-risk percentage. -/
def fuMid2 : String := "\n• High-risk applications: "

/-- Literal part of the demo-mode fallback after the high-risk percentage,
ending just before the interpolated `str(e)`. -/
def fuTail : String :=
  "%\n\n**Risk Factors:**\n• Housing type significantly impacts approval rates\n• Duration and amount show strong correlation\n• Age groups 26-35 have highest application volume\n\n**Recommendations:**\n• Focus on improving risk assessment for high-amount loans\n• Consider housing stability as key factor\n• Implement age-based risk scoring\n\n⚠️ OpenAI Error: "

/-- The `except` branch of `updated_dashboard.generate_credit_analysis`
(lines 99-117): a fixed f-string template that ends with the message of the
caught exception. -/
def fallbackUpdated (s : SummaryStats) (e : String) : String :=
  fuHead ++ toString s.total_records ++ fuMid1 ++ fmtMoney s.avg_credit
  ++ fuMid2 ++ fmt1Q s.high_risk_pct ++ fuTail ++ e

/-- `updated_dashboard.generate_credit_analysis`: success responses are
returned behind a live-analysis banner; any exception is caught and the demo
template (which embeds `str(e)`) returned instead. -/
def generate_credit_analysis (s : SummaryStats) (service : Except String String) : String :=
  match service with
  | .ok content => "🤖 **Live AI Analysis** (GPT-3.5-turbo)\n\n" ++ content
  | .error e => fallbackUpdated s e

/-- `st.metric` value `f"{len(filtered_df):,}"` (line 241). -/
def totalRecordsMetric (view : List Record) : String :=
  commaGroupN view.length

/-- `st.metric` value `f"${filtered_df['Credit amount'].mean():,.0f}"`
(line 248): the column mean formatted directly, with no empty-view guard. -/
def avgCreditMetric (view : List Record) : String :=
  "$" ++ fmtMoney (meanInt (view.map (·.creditAmount)))

/-- `st.metric` value `f"{filtered_df['Duration'].mean():.0f} months"`
(line 255). -/
def avgDurationMetric (view : List Record) : String :=
  fmt0 (meanInt (view.map (·.duration))) ++ " months"

/-- `st.metric` value `f"{filtered_df['Age'].mean():.0f} years"` (line 262). -/
def avgAgeMetric (view : List Record) : String :=
  fmt0 (meanInt (view.map (·.age))) ++ " years"

/-- The data behind the ten outputs of `updated_dashboard.update_all_charts`:
the eight chart tables (for the raw-column charts, the plotted columns) and
the AI text.  The wall-clock `data-store` output is display-only and
omitted. -/
structure DashboardOutput where
  ageSexChart : List ((String × String) × Nat)
  purposeChart : List (String × Nat)
  creditHistData : List Int
  housingJobChart : List ((String × Int) × Nat)
  creditByHousingData : List (String × Int)
  durationAmountData : List (Int × Int × String)
  savingsCheckingChart : List ((String × String) × Nat)
  riskChart : List (String × Nat)
  aiAnalysis : String

/-- `updated_dashboard.update_all_charts` (lines 218-284): all eight figures
are computed from `df_clean` alone; the service oracle is consulted only for
the `ai-analysis` output.  The risk chart is the hardcoded 700/300 split. -/
def update_all_charts (dfClean : List Record) (service : Except String String) :
    DashboardOutput where
  ageSexChart := groupCountAgeSex dfClean
  purposeChart := valueCounts (dfClean.map (·.purpose))
  creditHistData := dfClean.map (·.creditAmount)
  housingJobChart := groupCountHousingJob dfClean
  creditByHousingData := dfClean.map (fun r => (r.housing, r.creditAmount))
  durationAmountData := dfClean.map (fun r => (r.duration, r.creditAmount, r.purpose))
  savingsCheckingChart := groupCountSavingChecking dfClean
  riskChart := [("Good Risk", 700), ("Bad Risk", 300)]
  aiAnalysis := generate_credit_analysis (scalarSummary dfClean) service

/-- Two-row dataset used to exercise bucketing stability on a concrete
input. -/
def c4RawA : RawRecord := ⟨30, "male", 1, "own", none, none, 1000, 12, "car"⟩

/-- Second row of the concrete bucketing dataset. -/
def c4RawB : RawRecord := ⟨40, "female", 2, "rent", some "little", some "rich", 6000, 24, "business"⟩

/-- Concrete two-row dataset. -/
def c4Raw : List RawRecord := [c4RawA, c4RawB]

/-- A filter that both rows of `c4Raw` pass. -/
def c4Spec : FilterSpec := ⟨["car", "business"], ["own", "rent"], 0, 100, 0, 10000⟩

/-- The first row of `c4Raw` as labelled by `load_data`. -/
def c4Rec : Record :=
  labelRecord ((listMinD (c4Raw.map (·.creditAmount)) : Int) : ℚ)
              ((listMaxD (c4Raw.map (·.creditAmount)) : Int) : ℚ) c4RawA

/-- A single preprocessed row used to build an empty filtered view. -/
def c1Rec : Record :=
  ⟨30, "male", 1, "own", "unknown", "unknown", 1000, 12, "car", some "26-35", some "Medium"⟩

/-- A filter whose age range excludes the single row of `[c1Rec]`. -/
def c1Spec : FilterSpec := ⟨["car"], ["own"], 40, 50, 0, 10000⟩

/-- Concrete row for the filter-conjunction witness. -/
def c6Rec : Record :=
  ⟨30, "male", 1, "own", "unknown", "unknown", 1000, 12, "car", some "26-35", some "Low"⟩

/-- One-row view for the filter-conjunction witness. -/
def c6View : List Record := [c6Rec]

/-- A filter that `c6Rec` satisfies on all four predicates. -/
def c6Spec : FilterSpec := ⟨["car"], ["own"], 18, 60, 500, 5000⟩

/-- Row whose housing value sorts after the second row's, although it comes
first in the view. -/
def c7RecA : Record :=
  ⟨30, "male", 1, "rent", "unknown", "unknown", 1000, 12, "car", some "26-35", some "Low"⟩

/-- Row whose housing value sorts before `c7RecA`'s. -/
def c7RecB : Record :=
  ⟨40, "female", 2, "own", "unknown", "unknown", 2000, 24, "business", some "36-45", some "Low"⟩

/-- View in which the first-seen housing order is `rent` before `own`. -/
def c7View : List Record := [c7RecA, c7RecB]

/-- A row whose age (150) falls outside every `pd.cut` age bin, so its
`Age_Group` is NaN. -/
def c10Rec : Record :=
  ⟨150, "male", 1, "own", "unknown", "unknown", 1000, 12, "car", none, none⟩

/-- Summary snapshot of an empty view (count 0, NaN means), as fed to the
text generator after an all-excluding filter. -/
def c3Stats : SummaryStats := ⟨0, none, none, none, "Mixed portfolio", 30⟩

/-- An error message longer than the whole streamlit fallback template. -/
def c3Err : String := String.mk (List.replicate 2000 'z')

theorem mem_pdUnique_aux [DecidableEq α] {x : α} :
    ∀ (l acc : List α),
      x ∈ l.foldl (fun acc y => if y ∈ acc then acc else acc ++ [y]) acc ↔
        x ∈ acc ∨ x ∈ l := by
  intro l
  induction l with
  | nil => intro acc; simp
  | cons y l ih =>
      intro acc
      simp only [List.foldl_cons]
      by_cases hy : y ∈ acc
      · rw [if_pos hy, ih]
        constructor
        · rintro (h | h) <;> simp [h, List.mem_cons]
        · rintro (h | h)
          · exact Or.inl h
          · rcases List.mem_cons.mp h with rfl | h
            · exact Or.inl hy
            · exact Or.inr h
      · rw [if_neg hy, ih]
        simp [List.mem_cons, List.mem_append]
        tauto

theorem mem_pdUnique [DecidableEq α] {l : List α} {x : α} : x ∈ pdUnique l ↔ x ∈ l := by
  unfold pdUnique
  rw [mem_pdUnique_aux]
  simp

theorem foldl_min_le_self : ∀ (l : List Int) (a : Int), l.foldl min a ≤ a
  | [], _ => le_refl _
  | b :: l, a => le_trans (foldl_min_le_self l (min a b)) (min_le_left a b)

theorem foldl_min_le_mem : ∀ (l : List Int) (a b : Int), b ∈ l → l.foldl min a ≤ b
  | c :: l, a, b, h => by
      rcases List.mem_cons.mp h with h | h
      · subst h
        exact le_trans (foldl_min_le_self l (min a b)) (min_le_right a b)
      · exact foldl_min_le_mem l (min a c) b h

theorem listMinD_le {l : List Int} {b : Int} (h : b ∈ l) : listMinD l ≤ b := by
  cases l with
  | nil => cases h
  | cons a l =>
      rcases List.mem_cons.mp h with h | h
      · rw [h]; exact foldl_min_le_self l a
      · exact foldl_min_le_mem l a b h

theorem le_foldl_max_self : ∀ (l : List Int) (a : Int), a ≤ l.foldl max a
  | [], _ => le_refl _
  | b :: l, a => le_trans (le_max_left a b) (le_foldl_max_self l (max a b))

theorem le_foldl_max_mem : ∀ (l : List Int) (a b : Int), b ∈ l → b ≤ l.foldl max a
  | c :: l, a, b, h => by
      rcases List.mem_cons.mp h with h | h
      · subst h
        exact le_trans (le_max_right a b) (le_foldl_max_self l (max a b))
      · exact le_foldl_max_mem l (max a c) b h

theorem le_listMaxD {l : List Int} {b : Int} (h : b ∈ l) : b ≤ listMaxD l := by
  cases l with
  | nil => cases h
  | cons a l =>
      rcases List.mem_cons.mp h with h | h
      · rw [h]; exact le_foldl_max_self l a
      · exact le_foldl_max_mem l a b h

theorem lexLtN_trans :
    ∀ (x y z : List Nat), lexLtN x y = true → lexLtN y z = true → lexLtN x z = true
  | [], [], _, h1, _ => by simp [lexLtN] at h1
  | [], _ :: _, [], _, h2 => by simp [lexLtN] at h2
  | [], _ :: _, _ :: _, _, _ => rfl
  | _ :: _, [], _, h1, _ => by simp [lexLtN] at h1
  | _ :: _, _ :: _, [], _, h2 => by simp [lexLtN] at h2
  | a :: as, b :: bs, c :: cs, h1, h2 => by
      simp only [lexLtN] at h1 h2 ⊢
      by_cases hab : a < b
      · by_cases hbc : b < c
        · simp [Nat.lt_trans hab hbc]
        · by_cases hcb : c < b
          · simp [hbc, hcb] at h2
          · have hbc' : b = c := Nat.le_antisymm (Nat.le_of_not_lt hcb) (Nat.le_of_not_lt hbc)
            subst hbc'
            simp [hab]
      · by_cases hba : b < a
        · simp [hab, hba] at h1
        · have hab' : a = b := Nat.le_antisymm (Nat.le_of_not_lt hba) (Nat.le_of_not_lt hab)
          subst hab'
          simp only [if_neg hab, if_neg hba] at h1
          by_cases hbc : a < c
          · simp [hbc]
          · by_cases hcb : c < a
            · simp [hbc, hcb] at h2
            · simp only [if_neg hbc, if_neg hcb] at h2 ⊢
              exact lexLtN_trans as bs cs h1 h2

theorem lexLtN_connex :
    ∀ (x y : List Nat), lexLtN x y = false → lexLtN y x = false → x = y
  | [], [], _, _ => rfl
  | [], _ :: _, h1, _ => by simp [lexLtN] at h1
  | _ :: _, [], _, h2 => by simp [lexLtN] at h2
  | a :: as, b :: bs, h1, h2 => by
      simp only [lexLtN] at h1 h2
      by_cases hab : a < b
      · simp [hab] at h1
      · by_cases hba : b < a
        · simp [hab, hba] at h1 h2
        · have hab' : a = b := Nat.le_antisymm (Nat.le_of_not_lt hba) (Nat.le_of_not_lt hab)
          subst hab'
          simp only [if_neg hab, if_neg hba] at h1 h2
          rw [lexLtN_connex as bs h1 h2]

theorem lexLeN_total : ∀ (x y : List Nat), lexLeN x y = true ∨ lexLeN y x = true
  | [], _ => Or.inl rfl
  | _ :: _, [] => Or.inr rfl
  | a :: as, b :: bs => by
      simp only [lexLeN]
      by_cases hab : a < b
      · exact Or.inl (by simp [hab])
      · by_cases hba : b < a
        · exact Or.inr (by simp [hba, hab])
        · have hab' : a = b := Nat.le_antisymm (Nat.le_of_not_lt hba) (Nat.le_of_not_lt hab)
          subst hab'
          simpa [hab] using lexLeN_total as bs

theorem lexLeN_trans :
    ∀ (x y z : List Nat), lexLeN x y = true → lexLeN y z = true → lexLeN x z = true
  | [], _, _, _, _ => rfl
  | _ :: _, [], _, h1, _ => by simp [lexLeN] at h1
  | _ :: _, _ :: _, [], _, h2 => by simp [lexLeN] at h2
  | a :: as, b :: bs, c :: cs, h1, h2 => by
      simp only [lexLeN] at h1 h2 ⊢
      by_cases hab : a < b
      · by_cases hbc : b < c
        · simp [Nat.lt_trans hab hbc]
        · by_cases hcb : c < b
          · simp [hbc, hcb] at h2
          · have hbc' : b = c := Nat.le_antisymm (Nat.le_of_not_lt hcb) (Nat.le_of_not_lt hbc)
            subst hbc'
            simp [hab]
      · by_cases hba : b < a
        · simp [hab, hba] at h1
        · have hab' : a = b := Nat.le_antisymm (Nat.le_of_not_lt hba) (Nat.le_of_not_lt hab)
          subst hab'
          simp only [if_neg hab, if_neg hba] at h1
          by_cases hbc : a < c
          · simp [hbc]
          · by_cases hcb : c < a
            · simp [hbc, hcb] at h2
            · simp only [if_neg hbc, if_neg hcb] at h2 ⊢
              exact lexLeN_trans as bs cs h1 h2

theorem lexCmpLe_total {f : α → List Nat} {le2 : α → α → Bool}
    (h2 : ∀ a b, le2 a b = true ∨ le2 b a = true) (a b : α) :
    lexCmpLe f le2 a b = true ∨ lexCmpLe f le2 b a = true := by
  unfold lexCmpLe
  by_cases hab : lexLtN (f a) (f b) = true
  · exact Or.inl (by simp [hab])
  · by_cases hba : lexLtN (f b) (f a) = true
    · exact Or.inr (by simp [hba])
    · simp only [hab, hba, Bool.false_eq_true, if_false, if_neg]
      simpa using h2 a b

theorem lexCmpLe_trans {f : α → List Nat} {le2 : α → α → Bool}
    (h2 : ∀ a b c, le2 a b = true → le2 b c = true → le2 a c = true) (a b c : α)
    (hab : lexCmpLe f le2 a b = true) (hbc : lexCmpLe f le2 b c = true) :
    lexCmpLe f le2 a c = true := by
  unfold lexCmpLe at hab hbc ⊢
  by_cases h1 : lexLtN (f a) (f b) = true
  · by_cases h2' : lexLtN (f b) (f c) = true
    · simp [lexLtN_trans _ _ _ h1 h2']
    · by_cases h3 : lexLtN (f c) (f b) = true
      · simp [h2', h3] at hbc
      · have hfe : f b = f c :=
          lexLtN_connex _ _ (Bool.not_eq_true _ ▸ h2') (Bool.not_eq_true _ ▸ h3)
        rw [← hfe]
        simp [h1]
  · by_cases h1' : lexLtN (f b) (f a) = true
    · simp [h1, h1'] at hab
    · have hfe : f a = f b :=
        lexLtN_connex _ _ (Bool.not_eq_true _ ▸ h1) (Bool.not_eq_true _ ▸ h1')
      simp only [if_neg h1, if_neg h1'] at hab
      rw [hfe]
      by_cases h2' : lexLtN (f b) (f c) = true
      · simp [h2']
      · by_cases h3 : lexLtN (f c) (f b) = true
        · simp [h2', h3] at hbc
        · simp only [if_neg h2', if_neg h3] at hbc ⊢
          exact h2 a b c hab hbc

theorem mem_insTail {r : α → α → Bool} {x z : α} :
    ∀ {l : List α}, z ∈ insTail r x l → z = x ∨ z ∈ l := by
  intro l
  induction l with
  | nil => intro h; simp [insTail] at h; exact Or.inl h
  | cons y ys ih =>
      intro h
      by_cases hr : r y x = true
      · simp only [insTail, if_pos hr, List.mem_cons] at h
        rcases h with h | h
        · exact Or.inr (List.mem_cons.mpr (Or.inl h))
        · rcases ih h with h | h
          · exact Or.inl h
          · exact Or.inr (List.mem_cons.mpr (Or.inr h))
      · simp only [insTail, if_neg hr, List.mem_cons] at h
        rcases h with h | h
        · exact Or.inl h
        · exact Or.inr (List.mem_cons.mpr h)

theorem pairwise_insTail {r : α → α → Bool}
    (total : ∀ a b, r a b = true ∨ r b a = true)
    (htrans : ∀ a b c, r a b = true → r b c = true → r a c = true) (x : α) :
    ∀ {l : List α}, l.Pairwise (fun a b => r a b = true) →
      (insTail r x l).Pairwise (fun a b => r a b = true) := by
  intro l
  induction l with
  | nil => intro _; simp [insTail]
  | cons y ys ih =>
      intro hp
      rcases List.pairwise_cons.mp hp with ⟨hy, hys⟩
      by_cases hr : r y x = true
      · simp only [insTail, if_pos hr]
        refine List.pairwise_cons.mpr ⟨?_, ih hys⟩
        intro z hz
        rcases mem_insTail hz with rfl | hz
        · exact hr
        · exact hy z hz
      · simp only [insTail, if_neg hr]
        have hxy : r x y = true := by
          rcases total x y with h | h
          · exact h
          · exact absurd h hr
        refine List.pairwise_cons.mpr ⟨?_, hp⟩
        intro z hz
        rcases List.mem_cons.mp hz with rfl | hz
        · exact hxy
        · exact htrans x y z hxy (hy z hz)

theorem insTail_perm (r : α → α → Bool) (x : α) :
    ∀ (l : List α), List.Perm (insTail r x l) (x :: l)
  | [] => List.Perm.refl _
  | y :: ys => by
      by_cases hr : r y x = true
      · simp only [insTail, if_pos hr]
        exact ((insTail_perm r x ys).cons y).trans (List.Perm.swap x y ys)
      · simp only [insTail, if_neg hr]
        exact List.Perm.refl _

theorem isort_aux_pairwise {r : α → α → Bool}
    (total : ∀ a b, r a b = true ∨ r b a = true)
    (htrans : ∀ a b c, r a b = true → r b c = true → r a c = true) :
    ∀ (l acc : List α), acc.Pairwise (fun a b => r a b = true) →
      (l.foldl (fun acc x => insTail r x acc) acc).Pairwise (fun a b => r a b = true)
  | [], _, h => h
  | x :: l, acc, h =>
      isort_aux_pairwise total htrans l (insTail r x acc) (pairwise_insTail total htrans x h)

theorem isort_pairwise {r : α → α → Bool}
    (total : ∀ a b, r a b = true ∨ r b a = true)
    (htrans : ∀ a b c, r a b = true → r b c = true → r a c = true) (l : List α) :
    (isort r l).Pairwise (fun a b => r a b = true) :=
  isort_aux_pairwise total htrans l [] List.Pairwise.nil

theorem isort_aux_perm (r : α → α → Bool) :
    ∀ (l acc : List α),
      List.Perm (l.foldl (fun acc x => insTail r x acc) acc) (acc ++ l)
  | [], acc => by simp
  | x :: l, acc => by
      refine (isort_aux_perm r l (insTail r x acc)).trans ?_
      refine ((insTail_perm r x acc).append_right l).trans ?_
      exact List.perm_middle.symm

theorem isort_perm (r : α → α → Bool) (l : List α) : List.Perm (isort r l) l := by
  have h := isort_aux_perm r l []
  simpa using h

theorem insTail_cntGe_filter (c : Nat) (x : α × Nat) :
    ∀ {l : List (α × Nat)}, l.Pairwise (fun a b => cntGe a b = true) →
      (insTail cntGe x l).filter (fun p => p.2 == c) =
        l.filter (fun p => p.2 == c) ++ (if x.2 == c then [x] else []) := by
  intro l
  induction l with
  | nil =>
      intro _
      by_cases hxc : (x.2 == c) = true <;> simp [insTail, List.filter, hxc]
  | cons y ys ih =>
      intro hp
      rcases List.pairwise_cons.mp hp with ⟨hy, hys⟩
      by_cases hr : cntGe y x = true
      · simp only [insTail, if_pos hr]
        rw [List.filter_cons, List.filter_cons, ih hys]
        by_cases hyc : (y.2 == c) = true <;> simp [hyc]
      · simp only [insTail, if_neg hr]
        have hlt : y.2 < x.2 := by
          simp only [cntGe, decide_eq_true_eq] at hr
          omega
        by_cases hxc : (x.2 == c) = true
        · have hc : x.2 = c := by simpa using hxc
          have hnil : (y :: ys).filter (fun p => p.2 == c) = [] := by
            refine List.filter_eq_nil_iff.mpr ?_
            intro z hz
            have hzle : z.2 ≤ y.2 := by
              rcases List.mem_cons.mp hz with rfl | hz
              · exact le_refl _
              · have h2 := hy z hz
                simp only [cntGe, decide_eq_true_eq] at h2
                exact h2
            simp only [beq_iff_eq]
            omega
          rw [List.filter_cons, hnil]
          simp [hxc]
        · rw [List.filter_cons]
          simp [hxc]

theorem cntGe_total (a b : α × Nat) : cntGe a b = true ∨ cntGe b a = true := by
  simp only [cntGe, decide_eq_true_eq]
  omega

theorem cntGe_trans (a b c : α × Nat) (h1 : cntGe a b = true) (h2 : cntGe b c = true) :
    cntGe a c = true := by
  simp only [cntGe, decide_eq_true_eq] at h1 h2 ⊢
  omega

theorem isort_aux_cntGe_filter (c : Nat) :
    ∀ (l acc : List (α × Nat)), acc.Pairwise (fun a b => cntGe a b = true) →
      (l.foldl (fun acc x => insTail cntGe x acc) acc).filter (fun p => p.2 == c) =
        acc.filter (fun p => p.2 == c) ++ l.filter (fun p => p.2 == c)
  | [], acc, _ => by simp
  | x :: l, acc, h => by
      rw [List.foldl_cons,
        isort_aux_cntGe_filter c l (insTail cntGe x acc)
          (pairwise_insTail cntGe_total cntGe_trans x h),
        insTail_cntGe_filter c x h, List.filter_cons]
      by_cases hxc : (x.2 == c) = true <;> simp [hxc]

theorem isort_cntGe_filter (c : Nat) (l : List (α × Nat)) :
    (isort cntGe l).filter (fun p => p.2 == c) = l.filter (fun p => p.2 == c) := by
  have h := isort_aux_cntGe_filter c l [] List.Pairwise.nil
  simpa using h

theorem strLeB_total (a b : String) : strLeB a b = true ∨ strLeB b a = true :=
  lexLeN_total (strKey a) (strKey b)

theorem strLeB_trans (a b c : String) (h1 : strLeB a b = true) (h2 : strLeB b c = true) :
    strLeB a c = true :=
  lexLeN_trans (strKey a) (strKey b) (strKey c) h1 h2

theorem hjLe_total (a b : String × Int) : hjLe a b = true ∨ hjLe b a = true := by
  refine lexCmpLe_total ?_ a b
  intro p q
  simp only [decide_eq_true_eq]
  omega

theorem hjLe_trans (a b c : String × Int) (h1 : hjLe a b = true) (h2 : hjLe b c = true) :
    hjLe a c = true := by
  refine lexCmpLe_trans ?_ a b c h1 h2
  intro p q s hpq hqs
  simp only [decide_eq_true_eq] at hpq hqs ⊢
  omega

theorem asLe_total (a b : String × String) : asLe a b = true ∨ asLe b a = true := by
  unfold asLe
  exact lexCmpLe_total (fun p q => strLeB_total p.2 q.2) a b

theorem asLe_trans (a b c : String × String) (h1 : asLe a b = true) (h2 : asLe b c = true) :
    asLe a c = true := by
  unfold asLe at h1 h2 ⊢
  exact lexCmpLe_trans (fun p q s hpq hqs => strLeB_trans p.2 q.2 s.2 hpq hqs) a b c h1 h2

theorem scLe_total (a b : String × String) : scLe a b = true ∨ scLe b a = true := by
  unfold scLe
  exact lexCmpLe_total (fun p q => strLeB_total p.2 q.2) a b

theorem scLe_trans (a b c : String × String) (h1 : scLe a b = true) (h2 : scLe b c = true) :
    scLe a c = true := by
  unfold scLe at h1 h2 ⊢
  exact lexCmpLe_trans (fun p q s hpq hqs => strLeB_trans p.2 q.2 s.2 hpq hqs) a b c h1 h2

/-- C5: for every dataset, the default FilterSpec (every observed purpose and
housing category selected, age and credit ranges at the observed min and max)
filters to a view with exactly the same records as the unfiltered dataset. -/
theorem c5_default_filter_identity (v : List Record) : applyFilter v (defaultSpec v) = v := by
  refine List.filter_eq_self.mpr ?_
  intro r hr
  have hp : r.purpose ∈ v.map (·.purpose) := List.mem_map_of_mem _ hr
  have hh : r.housing ∈ v.map (·.housing) := List.mem_map_of_mem _ hr
  have ha : r.age ∈ v.map (·.age) := List.mem_map_of_mem _ hr
  have hc : r.creditAmount ∈ v.map (·.creditAmount) := List.mem_map_of_mem _ hr
  simp only [recordPasses, defaultSpec, Bool.and_eq_true, decide_eq_true_eq]
  refine ⟨⟨⟨⟨⟨?_, ?_⟩, ?_⟩, ?_⟩, ?_⟩, ?_⟩
  · exact mem_pdUnique.mpr hp
  · exact mem_pdUnique.mpr hh
  · exact listMinD_le ha
  · exact le_listMaxD ha
  · exact listMinD_le hc
  · exact le_listMaxD hc

/-- C6: a record of the dataset appears in the filtered view iff its purpose
is allowed, its housing is allowed, its age lies in the inclusive age range
and its credit amount lies in the inclusive credit range — the four
predicates conjoined. -/
theorem c6_filter_conjunction (v : List Record) (spec : FilterSpec) (r : Record)
    (hr : r ∈ v) :
    r ∈ applyFilter v spec ↔
      (r.purpose ∈ spec.purposes ∧ r.housing ∈ spec.housing_types ∧
        (spec.age_min ≤ r.age ∧ r.age ≤ spec.age_max) ∧
        (spec.credit_min ≤ r.creditAmount ∧ r.creditAmount ≤ spec.credit_max)) := by
  unfold applyFilter
  rw [List.mem_filter]
  simp [recordPasses, hr, and_assoc]

/-- C6 witness: the concrete row `c6Rec` satisfies all four predicates of
`c6Spec` and accordingly appears in the filtered view. -/
theorem c6_filter_conjunction_witness :
    c6Rec ∈ applyFilter c6View c6Spec ↔
      (c6Rec.purpose ∈ c6Spec.purposes ∧ c6Rec.housing ∈ c6Spec.housing_types ∧
        (c6Spec.age_min ≤ c6Rec.age ∧ c6Rec.age ≤ c6Spec.age_max) ∧
        (c6Spec.credit_min ≤ c6Rec.creditAmount ∧ c6Rec.creditAmount ≤ c6Spec.credit_max)) :=
  c6_filter_conjunction c6View c6Spec c6Rec (by decide)

/-- C9: the eight chart tables produced by one `update_all_charts` run are
identical whether the external summary call succeeds or fails — they do not
depend on the oracle outcome at all. -/
theorem c9_chart_summary_independence (df : List Record) (o1 o2 : Except String String) :
    (update_all_charts df o1).ageSexChart = (update_all_charts df o2).ageSexChart ∧
    (update_all_charts df o1).purposeChart = (update_all_charts df o2).purposeChart ∧
    (update_all_charts df o1).creditHistData = (update_all_charts df o2).creditHistData ∧
    (update_all_charts df o1).housingJobChart = (update_all_charts df o2).housingJobChart ∧
    (update_all_charts df o1).creditByHousingData = (update_all_charts df o2).creditByHousingData ∧
    (update_all_charts df o1).durationAmountData = (update_all_charts df o2).durationAmountData ∧
    (update_all_charts df o1).savingsCheckingChart = (update_all_charts df o2).savingsCheckingChart ∧
    (update_all_charts df o1).riskChart = (update_all_charts df o2).riskChart :=
  ⟨rfl, rfl, rfl, rfl, rfl, rfl, rfl, rfl⟩

/-- C1: evaluation at a zero-record filtered view.  The filter excludes the
only row; the summary then reports count 0 and no exception is modelled
anywhere, but all three means are NaN (`none`) and the rendered metric
strings read `nan` — contradicting the claim that displayed means are never
NaN. -/
theorem c1_empty_view_nan_eval :
    applyFilter [c1Rec] c1Spec = [] ∧
    (scalarSummary (applyFilter [c1Rec] c1Spec)).total_records = 0 ∧
    (scalarSummary (applyFilter [c1Rec] c1Spec)).avg_credit = none ∧
    (scalarSummary (applyFilter [c1Rec] c1Spec)).avg_age = none ∧
    (scalarSummary (applyFilter [c1Rec] c1Spec)).avg_duration = none ∧
    avgCreditMetric (applyFilter [c1Rec] c1Spec) = "$nan" ∧
    avgAgeMetric (applyFilter [c1Rec] c1Spec) = "nan years" ∧
    avgDurationMetric (applyFilter [c1Rec] c1Spec) = "nan months" ∧
    groupCountHousingJob (applyFilter [c1Rec] c1Spec) = [] ∧
    groupCountAgeSex (applyFilter [c1Rec] c1Spec) = [] := by
  decide

/-- C10: an age outside (0, 100] gets no `Age_Group` label; the bracket
labelled `18-25` in fact covers every age from 1 to 25; and a row with a NaN
`Age_Group` is silently dropped from the age-bracket grouped count. -/
theorem c10_age_bucket_dropping :
    (∀ a : Int, a ≤ 0 ∨ 100 < a → ageGroupOf a = none) ∧
    (∀ a : Int, 1 ≤ a → a ≤ 25 → ageGroupOf a = some "18-25") ∧
    (∀ (r : Record) (v : List Record), r.ageGroup = none →
      groupCountAgeSex (r :: v) = groupCountAgeSex v) := by
  refine ⟨?_, ?_, ?_⟩
  · intro a h
    unfold ageGroupOf
    split_ifs <;> first | rfl | (exfalso; omega)
  · intro a h1 h2
    unfold ageGroupOf
    rw [if_pos ⟨by omega, h2⟩]
  · intro r v h
    unfold groupCountAgeSex
    rw [List.filterMap_cons]
    simp [h]

/-- C10 witness: age 150 (and any nonpositive age) gets no label, age 17
lands in the `18-25` bracket, and dropping holds at the concrete row
`c10Rec`. -/
theorem c10_age_bucket_dropping_witness :
    ageGroupOf (-5) = none ∧ ageGroupOf 17 = some "18-25" ∧
    groupCountAgeSex [c10Rec] = groupCountAgeSex [] :=
  ⟨c10_age_bucket_dropping.1 (-5) (Or.inl (by decide)),
   c10_age_bucket_dropping.2.1 17 (by decide) (by decide),
   c10_age_bucket_dropping.2.2 c10Rec [] (by decide)⟩

/-- C4: every record of any filtered view carries exactly the bucket labels
computed at load time — the age bracket is the fixed-bin bucket of its age
and the credit bucket comes from the credit min/max of the full unfiltered
dataset, so filtering never changes or recomputes bucket membership. -/
theorem c4_bucket_stability (raw : List RawRecord) (spec : FilterSpec) (r : Record)
    (hr : r ∈ applyFilter (load_data raw) spec) :
    r.ageGroup = ageGroupOf r.age ∧
    r.creditGroup =
      creditGroupOf ((listMinD (raw.map (·.creditAmount)) : Int) : ℚ)
        ((listMaxD (raw.map (·.creditAmount)) : Int) : ℚ) (r.creditAmount : ℚ) := by
  have hmem : r ∈ load_data raw := (List.mem_filter.mp hr).1
  unfold load_data at hmem
  rcases List.mem_map.mp hmem with ⟨r0, _, rfl⟩
  exact ⟨rfl, rfl⟩

/-- C4 witness: the first labelled row of the concrete dataset `c4Raw`
survives the filter `c4Spec` and its stored labels agree with the load-time
bucket functions over the full dataset's credit bounds. -/
theorem c4_bucket_stability_witness :
    c4Rec.ageGroup = ageGroupOf c4Rec.age ∧
    c4Rec.creditGroup =
      creditGroupOf ((listMinD (c4Raw.map (·.creditAmount)) : Int) : ℚ)
        ((listMaxD (c4Raw.map (·.creditAmount)) : Int) : ℚ) (c4Rec.creditAmount : ℚ) := by
  refine c4_bucket_stability c4Raw c4Spec c4Rec ?_
  refine List.mem_filter.mpr ⟨?_, ?_⟩
  · show c4Rec ∈ load_data c4Raw
    unfold c4Rec load_data
    simp only [c4Raw, List.map_cons, List.map_nil]
    exact List.mem_cons_self _ _
  · show recordPasses c4Spec c4Rec = true
    decide

set_option maxRecDepth 4000 in
/-- C2: when the external text call fails, both summarize implementations
still return a string (the embedding is total — the Python `except
Exception` branch catches every service error), the string is non-empty, and
it contains the record count that was passed in. -/
theorem c2_fallback_guarantee (s : SummaryStats) (e : String) :
    0 < (generate_ai_analysis s (.error e)).length ∧
    (∃ a b, generate_ai_analysis s (.error e) = a ++ toString s.total_records ++ b) ∧
    0 < (generate_credit_analysis s (.error e)).length ∧
    (∃ a b, generate_credit_analysis s (.error e) = a ++ toString s.total_records ++ b) := by
  refine ⟨?_, ?_, ?_, ?_⟩
  · show 0 < (fallbackStreamlit s).length
    unfold fallbackStreamlit
    simp only [String.length_append]
    have h : 0 < fsHead.length := by decide
    omega
  · exact ⟨fsHead,
      fsMid1 ++ fmtMoney s.avg_credit ++ fsMid2 ++ fmt1 s.avg_age ++ fsTail,
      by simp [generate_ai_analysis, fallbackStreamlit, String.append_assoc]⟩
  · show 0 < (fallbackUpdated s e).length
    unfold fallbackUpdated
    simp only [String.length_append]
    have h : 0 < fuHead.length := by decide
    omega
  · exact ⟨fuHead,
      fuMid1 ++ fmtMoney s.avg_credit ++ fuMid2 ++ fmt1Q s.high_risk_pct ++ fuTail ++ e,
      by simp [generate_credit_analysis, fallbackUpdated, String.append_assoc]⟩

set_option maxRecDepth 8000 in
/-- C3 counterexample: the streamlit fallback ignores the caught exception,
so for an error message longer than the whole template the returned string
cannot contain it — the claim fails on
`streamlit_dashboard.generate_ai_analysis`. -/
theorem c3_claim_counterexample :
    ¬ ∃ a b : String, generate_ai_analysis c3Stats (.error c3Err) = a ++ c3Err ++ b := by
  rintro ⟨a, b, h⟩
  have hlen : (generate_ai_analysis c3Stats (.error c3Err)).length < 2000 := by
    show (fallbackStreamlit c3Stats).length < 2000
    unfold fallbackStreamlit
    have h1 : c3Stats.total_records = 0 := rfl
    have h2 : c3Stats.avg_credit = none := rfl
    have h3 : c3Stats.avg_age = none := rfl
    rw [h1, h2, h3]
    simp only [String.length_append]
    have e1 : fsHead.length ≤ 200 := by decide
    have e2 : (toString (0 : Nat)).length ≤ 10 := by decide
    have e3 : fsMid1.length ≤ 100 := by decide
    have e4 : (fmtMoney none).length ≤ 10 := by decide
    have e5 : fsMid2.length ≤ 100 := by decide
    have e6 : (fmt1 none).length ≤ 10 := by decide
    have e7 : fsTail.length ≤ 600 := by decide
    omega
  rw [h] at hlen
  simp only [String.length_append] at hlen
  have he : c3Err.length = 2000 := by
    show (List.replicate 2000 'z').length = 2000
    rw [List.length_replicate]
  omega

set_option maxRecDepth 4000 in
/-- C3 amended: on failure both implementations return a deterministic
template of the stats fields (the streamlit one is independent of the error
message entirely); the dash variant is prefixed with its demo-mode fallback
banner and ends with the triggering error message, while the streamlit
variant starts with its fixed report header and contains no error message. -/
theorem c3_fallback_amended (s : SummaryStats) (e e2 : String) :
    generate_ai_analysis s (.error e) = generate_ai_analysis s (.error e2) ∧
    (∃ rest, generate_ai_analysis s (.error e) = fsHead ++ rest) ∧
    (∃ rest, generate_credit_analysis s (.error e) =
      "🔍 **AI Credit Risk Analysis** (Demo Mode)" ++ rest) ∧
    (∃ a, generate_credit_analysis s (.error e) = a ++ e) := by
  refine ⟨rfl, ?_, ?_, ?_⟩
  · exact ⟨toString s.total_records ++ fsMid1 ++ fmtMoney s.avg_credit ++ fsMid2
        ++ fmt1 s.avg_age ++ fsTail,
      by simp [generate_ai_analysis, fallbackStreamlit, String.append_assoc]⟩
  · have hsplit : fuHead =
        "🔍 **AI Credit Risk Analysis** (Demo Mode)" ++ "\n        \n**Key Insights:**\n• " := by
      decide
    refine ⟨"\n        \n**Key Insights:**\n• " ++ toString s.total_records ++ fuMid1
        ++ fmtMoney s.avg_credit ++ fuMid2 ++ fmt1Q s.high_risk_pct ++ fuTail ++ e, ?_⟩
    show fallbackUpdated s e = _
    unfold fallbackUpdated
    rw [hsplit]
    simp only [String.append_assoc]
  · exact ⟨fuHead ++ toString s.total_records ++ fuMid1 ++ fmtMoney s.avg_credit
        ++ fuMid2 ++ fmt1Q s.high_risk_pct ++ fuTail, rfl⟩

/-- C7 counterexample: with first-seen housing order `rent` before `own`,
the grouped count comes back sorted (`own` first), not in first-seen order —
pandas `groupby` sorts group keys by default. -/
theorem c7_first_seen_counterexample :
    (groupCountHousingJob c7View).map (fun p => p.1) ≠
      pdUnique (c7View.map (fun r => (r.housing, r.job))) := by
  decide

/-- C7 amended: the grouped count holds exactly the first-seen key/count
pairs, but ordered ascending by group key (housing by code points, then job)
— the `groupby(sort=True)` default — rather than first-seen; the ordering is
a pure function of the view, hence stable across repeated calls. -/
theorem c7_group_order_amended (v : List Record) :
    (groupCountHousingJob v).Pairwise (fun a b => hjLe a.1 b.1 = true) ∧
    List.Perm (groupCountHousingJob v)
      (countsFS (v.map (fun r => (r.housing, r.job)))) := by
  constructor
  · exact isort_pairwise
      (fun (a b : (String × Int) × Nat) => hjLe_total a.1 b.1)
      (fun (a b c : (String × Int) × Nat) h1 h2 => hjLe_trans a.1 b.1 c.1 h1 h2) _
  · exact isort_perm _ _

/-- C8: `value_counts` output is sorted by descending count; rows of any
fixed count keep their first-seen relative order (the stable tie-break); and
on the spec's concrete example the table is exactly
`[(car,3),(radio,1),(tv,1)]`. -/
theorem c8_value_counts_ordering :
    (∀ l : List String,
      (valueCounts l).Pairwise (fun a b => b.2 ≤ a.2) ∧
      ∀ c : Nat, (valueCounts l).filter (fun p => p.2 == c) =
        (countsFS l).filter (fun p => p.2 == c)) ∧
    valueCounts ["car", "car", "radio", "car", "tv"] =
      [("car", 3), ("radio", 1), ("tv", 1)] := by
  constructor
  · intro l
    constructor
    · have h := isort_pairwise cntGe_total cntGe_trans (countsFS l)
      exact h.imp (fun hab => by simpa [cntGe] using hab)
    · intro c
      exact isort_cntGe_filter c (countsFS l)
  · decide
